import Mathlib

/-!
Verification of the Piccolo OS lock-core override header
(src/piccolo_os_lock_core_v1.1.h) against its specification.

The header defines four macros over four externally declared scheduler hooks
(piccolo_get_task_id, piccolo_lock_wait, piccolo_lock_wait_until,
piccolo_lock_yield).  Each macro is embedded as a function from the ambient
scheduler state to its result together with the ordered list of primitive
events its expansion performs.  The scheduler hooks are declared but not
defined in the repository; where a claim depends on their behaviour they are
modelled from the specification, as noted on each such definition.
-/

namespace PiccoloLockCore

/-- Primitive events observable while a macro expansion runs, in program
order: spin-lock acquisition and release, a read of the Scheduler Presence
flag, the hardware wait-for-event instructions (plain and deadline-bounded),
and the scheduler task APIs (block, block-until, yield). -/
inductive Event where
  | spinLockAcquire (lockId : Nat)
  | spinUnlock (lockId : Nat) (save : Nat)
  | readPresence
  | hwWFE
  | hwWFEUntil (deadline : Int)
  | schedBlock
  | schedBlockUntil (deadline : Int)
  | schedYield
  deriving DecidableEq, Repr

/-- Whether an event is a call into the scheduler task API. -/
def Event.isSchedulerApi : Event → Bool
  | Event.schedBlock => true
  | Event.schedBlockUntil _ => true
  | Event.schedYield => true
  | _ => false

/-- Whether an event can suspend or stall the executing context. -/
def Event.isBlocking : Event → Bool
  | Event.hwWFE => true
  | Event.hwWFEUntil _ => true
  | Event.schedBlock => true
  | Event.schedBlockUntil _ => true
  | Event.schedYield => true
  | _ => false

/-- Whether an event is a release of a spin lock. -/
def Event.isSpinUnlock : Event → Bool
  | Event.spinUnlock _ _ => true
  | _ => false

/-- Whether an event acquires a lock. -/
def Event.acquiresLock : Event → Bool
  | Event.spinLockAcquire _ => true
  | _ => false

/-- Whether an event mutates any shared state (a presence-flag read is the
only pure event in the alphabet). -/
def Event.writesState : Event → Bool
  | Event.readPresence => false
  | _ => true

/-- The ambient state the lock layer consults: the Scheduler Presence flag,
the id of the currently scheduled task, and the current hardware core
number.  Task and core ids are carried as unbounded integers so that the
int8 truncation performed at the lock_owner_id_t interface is explicit. -/
structure SchedState where
  schedulerActive : Bool
  currentTaskId : Int
  coreNum : Int
  deriving DecidableEq, Repr

/-- Two's-complement truncation of an integer to a signed 8-bit value,
the semantics of a C cast to int8_t (the default lock_owner_id_t). -/
def toInt8 (n : Int) : Int :=
  (n + 128) % 256 - 128

/-- Embedding of LOCK_INVALID_OWNER_ID, defined in the header as
((lock_owner_id_t)-1). -/
def LOCK_INVALID_OWNER_ID : Int :=
  toInt8 (-1)

/-- Modelled from the spec: piccolo_get_task_id is only declared in the
repository.  Per the spec (Owner Identity Resolver) it consults the
Scheduler Presence flag and returns the current task id when the scheduler
is active and the current hardware core number otherwise, as a
lock_owner_id_t (int8_t by default), with no side effect.  The result is
the returned value paired with the events performed. -/
def piccolo_get_task_id (st : SchedState) : Int × List Event :=
  (toInt8 (if st.schedulerActive then st.currentTaskId else st.coreNum),
   [Event.readPresence])

/-- Modelled from the spec: piccolo_lock_wait is only declared in the
repository.  Per the spec (Atomic Unlock-and-Wait Protocol) it consults the
Scheduler Presence flag; when active it cooperatively suspends the task via
the scheduler, when inactive it performs a lightweight hardware
wait-for-event. -/
def piccolo_lock_wait (st : SchedState) : List Event :=
  Event.readPresence ::
    (if st.schedulerActive then [Event.schedBlock] else [Event.hwWFE])

/-- Why a deadline-bounded wait resumed: a notification, a spurious wakeup,
or expiry of the deadline. -/
inductive WakeCause where
  | notify
  | spurious
  | deadlineReached
  deriving DecidableEq, Repr

/-- The resumption the environment (scheduler or hardware timer) chooses
for a deadline-bounded wait: the monotonic time at which the waiter
resumes, and why. -/
structure Resume where
  time : Int
  cause : WakeCause
  deriving DecidableEq, Repr

/-- The contract the spec imposes on the environment of a deadline-bounded
wait: the waiter is resumed with cause deadlineReached only once the
deadline has elapsed. -/
def ResumeOk (deadline : Int) (r : Resume) : Prop :=
  r.cause = WakeCause.deadlineReached → deadline ≤ r.time

instance (deadline : Int) (r : Resume) : Decidable (ResumeOk deadline r) := by
  unfold ResumeOk
  infer_instance

/-- Modelled from the spec: piccolo_lock_wait_until is only declared in the
repository.  Per the spec (Deadline-bounded wait) it consults the Scheduler
Presence flag, suspends until a notify, a spurious wakeup or the deadline
(hardware best_effort_wfe_or_timeout when degraded, a scheduler timer when
active), and reports true exactly when it resumed because the deadline was
reached.  The resumption chosen by the environment is the parameter r. -/
def piccolo_lock_wait_until (st : SchedState) (deadline : Int) (r : Resume) :
    Bool × List Event :=
  (r.cause == WakeCause.deadlineReached,
   Event.readPresence ::
     (if st.schedulerActive then [Event.schedBlockUntil deadline]
      else [Event.hwWFEUntil deadline]))

/-- Modelled from the spec: piccolo_lock_yield is only declared in the
repository.  Per the spec (Deadline-Aware Yield) it consults the Scheduler
Presence flag; when active it cooperatively yields the current task, when
inactive it is a no-op. -/
def piccolo_lock_yield (st : SchedState) : List Event :=
  Event.readPresence ::
    (if st.schedulerActive then [Event.schedYield] else [])

/-- Modelled from the spec: the time at which a context that performed a
cooperative yield resumes.  When the scheduler is active the task resumes
after a scheduler-dependent delay (the periodic tick re-examines readiness,
so the delay is at most one tick interval — a bound the theorems take as a
hypothesis); when the scheduler is inactive the yield is a no-op and
control returns at once. -/
def yieldResumeTime (st : SchedState) (now delay : Int) : Int :=
  if st.schedulerActive then now + delay else now

/-- Embedding of the header macro
lock_get_caller_owner_id() = ((lock_owner_id_t) piccolo_get_task_id()):
the hook result cast to lock_owner_id_t, with the hook's event trace. -/
def lock_get_caller_owner_id (st : SchedState) : Int × List Event :=
  (toInt8 (piccolo_get_task_id st).1, (piccolo_get_task_id st).2)

/-- Embedding of the header macro
lock_internal_spin_unlock_with_wait(lock, save), which expands to
spin_unlock((lock)->spin_lock, save); piccolo_lock_wait(); — the value is
the ordered event trace of the expansion. -/
def lock_internal_spin_unlock_with_wait (lockId save : Nat) (st : SchedState) :
    List Event :=
  Event.spinUnlock lockId save :: piccolo_lock_wait st

/-- Embedding of the header macro
lock_internal_spin_unlock_with_best_effort_wait_or_timeout(lock, save,
until), which expands to spin_unlock((lock)->spin_lock, save);
piccolo_lock_wait_until(until); — the statement expression's value is the
hook's return value, paired with the ordered event trace. -/
def lock_internal_spin_unlock_with_best_effort_wait_or_timeout
    (lockId save : Nat) (deadline : Int) (st : SchedState) (r : Resume) :
    Bool × List Event :=
  ((piccolo_lock_wait_until st deadline r).1,
   Event.spinUnlock lockId save :: (piccolo_lock_wait_until st deadline r).2)

/-- Embedding of the header macro
sync_internal_yield_until_before(until) = (piccolo_lock_yield();): the
deadline argument does not occur in the expansion. -/
def sync_internal_yield_until_before (deadline : Int) (st : SchedState) :
    List Event :=
  piccolo_lock_yield st

/-- The observable unlock-then-wait contract, stated from the spec's words
(Atomic Unlock-and-Wait Protocol): the expansion first releases the given
spin lock, releases no spin lock afterwards, and performs exactly one
suspension after the release. -/
def UnlockWaitContract (lockId save : Nat) (tr : List Event) : Prop :=
  ∃ rest, tr = Event.spinUnlock lockId save :: rest ∧
    rest.countP (fun e => e.isBlocking) = 1 ∧
    rest.countP (fun e => e.isSpinUnlock) = 0

theorem toInt8_range (n : Int) : -128 ≤ toInt8 n ∧ toInt8 n ≤ 127 := by
  unfold toInt8
  have h0 : 0 ≤ (n + 128) % 256 := Int.emod_nonneg _ (by norm_num)
  have h1 : (n + 128) % 256 < 256 := Int.emod_lt_of_pos _ (by norm_num)
  omega

theorem toInt8_eq_self (n : Int) (h0 : -128 ≤ n) (h1 : n ≤ 127) :
    toInt8 n = n := by
  unfold toInt8
  have h : (n + 128) % 256 = n + 128 :=
    Int.emod_eq_of_lt (by omega) (by omega)
  omega

theorem toInt8_toInt8 (n : Int) : toInt8 (toInt8 n) = toInt8 n := by
  have h := toInt8_range n
  exact toInt8_eq_self _ h.1 h.2

theorem toInt8_congr (a b : Int) (h : a % 256 = b % 256) :
    toInt8 a = toInt8 b := by
  unfold toInt8
  have ha : (a + 128) % 256 = (a % 256 + 128 % 256) % 256 := Int.add_emod a 128 256
  have hb : (b + 128) % 256 = (b % 256 + 128 % 256) % 256 := Int.add_emod b 128 256
  rw [ha, hb, h]

/-- Claim C2: lock_internal_spin_unlock_with_best_effort_wait_or_timeout
returns true only if the deadline has already elapsed at the moment it
returns; it never reports a timeout before the deadline has passed, while
returning false on a notify or spurious resume is permitted. -/
theorem timeout_reported_only_after_deadline
    (lockId save : Nat) (deadline : Int) (st : SchedState) (r : Resume)
    (hr : ResumeOk deadline r)
    (ht : (lock_internal_spin_unlock_with_best_effort_wait_or_timeout
      lockId save deadline st r).1 = true) :
    deadline ≤ r.time := by
  apply hr
  simpa [lock_internal_spin_unlock_with_best_effort_wait_or_timeout,
    piccolo_lock_wait_until] using ht

/-- Witness for C2: a concrete deadline-expiry resumption at time 7 for
deadline 5 satisfies the environment contract, the macro reports a timeout,
and the deadline has indeed elapsed. -/
theorem timeout_reported_only_after_deadline_witness :
    (5 : Int) ≤ (7 : Int) :=
  timeout_reported_only_after_deadline 1 0 5 ⟨true, 3, 0⟩
    ⟨7, WakeCause.deadlineReached⟩ (by decide) (by decide)

/-- Claim C3: lock_internal_spin_unlock_with_wait releases the spin lock by
calling spin_unlock(lock->spin_lock, save) as its first step, releases it
exactly once, and only afterwards suspends the caller. -/
theorem unlock_with_wait_unlocks_once_then_waits
    (lockId save : Nat) (st : SchedState) :
    ∃ rest, lock_internal_spin_unlock_with_wait lockId save st =
        Event.spinUnlock lockId save :: rest ∧
      rest.countP (fun e => e.isSpinUnlock) = 0 ∧
      (lock_internal_spin_unlock_with_wait lockId save st).countP
        (fun e => e.isSpinUnlock) = 1 ∧
      rest.any (fun e => e.isBlocking) = true := by
  refine ⟨piccolo_lock_wait st, rfl, ?_, ?_, ?_⟩ <;>
    cases h : st.schedulerActive <;>
      simp [piccolo_lock_wait, lock_internal_spin_unlock_with_wait, h,
        Event.isSpinUnlock, Event.isBlocking]

/-- Claim C4: lock_get_caller_owner_id returns the id of the currently
scheduled task when the scheduler is active and the current hardware core
number otherwise (for ids representable in lock_owner_id_t); concretely,
core 0 calling before activation gets 0, and the same call site after
activation while task 7 runs returns 7. -/
theorem owner_id_resolution (st : SchedState) :
    (st.schedulerActive = true → -128 ≤ st.currentTaskId →
      st.currentTaskId ≤ 127 →
      (lock_get_caller_owner_id st).1 = st.currentTaskId) ∧
    (st.schedulerActive = false → -128 ≤ st.coreNum → st.coreNum ≤ 127 →
      (lock_get_caller_owner_id st).1 = st.coreNum) ∧
    (lock_get_caller_owner_id ⟨false, 0, 0⟩).1 = 0 ∧
    (lock_get_caller_owner_id ⟨true, 7, 0⟩).1 = 7 := by
  refine ⟨?_, ?_, by decide, by decide⟩ <;>
    intro h h0 h1 <;>
      simp [lock_get_caller_owner_id, piccolo_get_task_id, h, toInt8_toInt8,
        toInt8_eq_self _ h0 h1]

/-- Witness for C4: after activation while task 7 runs the call returns 7. -/
theorem owner_id_resolution_witness :
    (lock_get_caller_owner_id ⟨true, 7, 0⟩).1 = 7 :=
  (owner_id_resolution ⟨true, 7, 0⟩).1 rfl (by decide) (by decide)

/-- Claim C5: with the scheduler inactive, lock_internal_spin_unlock_with_wait
releases the spin lock and then performs only a lightweight hardware
wait-for-event, invoking no scheduler task API, and its observable
unlock-then-wait-then-return contract is the same one every mode (in
particular active mode) satisfies. -/
theorem degraded_mode_unlock_wait (lockId save : Nat) (st : SchedState)
    (h : st.schedulerActive = false) :
    lock_internal_spin_unlock_with_wait lockId save st =
        [Event.spinUnlock lockId save, Event.readPresence, Event.hwWFE] ∧
      (∀ e ∈ lock_internal_spin_unlock_with_wait lockId save st,
        e.isSchedulerApi = false) ∧
      UnlockWaitContract lockId save
        (lock_internal_spin_unlock_with_wait lockId save st) ∧
      (∀ st2 : SchedState, UnlockWaitContract lockId save
        (lock_internal_spin_unlock_with_wait lockId save st2)) := by
  have hc : ∀ st2 : SchedState, UnlockWaitContract lockId save
      (lock_internal_spin_unlock_with_wait lockId save st2) := by
    intro st2
    refine ⟨piccolo_lock_wait st2, rfl, ?_, ?_⟩ <;>
      cases h2 : st2.schedulerActive <;>
        simp [piccolo_lock_wait, h2, Event.isBlocking, Event.isSpinUnlock]
  refine ⟨?_, ?_, hc st, hc⟩
  · simp [lock_internal_spin_unlock_with_wait, piccolo_lock_wait, h]
  · intro e he
    simp [lock_internal_spin_unlock_with_wait, piccolo_lock_wait, h] at he
    rcases he with h1 | h1 | h1 <;> subst h1 <;> rfl

/-- Witness for C5: the concrete inactive state satisfies the hypothesis and
the conclusion holds there. -/
theorem degraded_mode_unlock_wait_witness :
    lock_internal_spin_unlock_with_wait 1 4 ⟨false, 3, 0⟩ =
      [Event.spinUnlock 1 4, Event.readPresence, Event.hwWFE] :=
  (degraded_mode_unlock_wait 1 4 ⟨false, 3, 0⟩ rfl).1

/-- Claim C6: every invocation of lock_get_caller_owner_id,
lock_internal_spin_unlock_with_wait,
lock_internal_spin_unlock_with_best_effort_wait_or_timeout and
sync_internal_yield_until_before reads the Scheduler Presence flag at call
time, and a flag change takes effect on the very next invocation: at a
state holding task 7 on core 0, flipping the flag changes the observable
behaviour of each operation. -/
theorem presence_flag_consulted_every_call
    (st : SchedState) (deadline : Int) (r : Resume) (lockId save : Nat) :
    Event.readPresence ∈ (lock_get_caller_owner_id st).2 ∧
    Event.readPresence ∈ lock_internal_spin_unlock_with_wait lockId save st ∧
    Event.readPresence ∈
      (lock_internal_spin_unlock_with_best_effort_wait_or_timeout
        lockId save deadline st r).2 ∧
    Event.readPresence ∈ sync_internal_yield_until_before deadline st ∧
    (lock_get_caller_owner_id ⟨true, 7, 0⟩).1 ≠
      (lock_get_caller_owner_id ⟨false, 7, 0⟩).1 ∧
    lock_internal_spin_unlock_with_wait lockId save ⟨true, 7, 0⟩ ≠
      lock_internal_spin_unlock_with_wait lockId save ⟨false, 7, 0⟩ ∧
    (lock_internal_spin_unlock_with_best_effort_wait_or_timeout
        lockId save deadline ⟨true, 7, 0⟩ r).2 ≠
      (lock_internal_spin_unlock_with_best_effort_wait_or_timeout
        lockId save deadline ⟨false, 7, 0⟩ r).2 ∧
    sync_internal_yield_until_before deadline ⟨true, 7, 0⟩ ≠
      sync_internal_yield_until_before deadline ⟨false, 7, 0⟩ := by
  refine ⟨?_, ?_, ?_, ?_, by decide, ?_, ?_, ?_⟩ <;>
    cases h : st.schedulerActive <;>
      simp [lock_get_caller_owner_id, piccolo_get_task_id,
        lock_internal_spin_unlock_with_wait, piccolo_lock_wait,
        lock_internal_spin_unlock_with_best_effort_wait_or_timeout,
        piccolo_lock_wait_until, sync_internal_yield_until_before,
        piccolo_lock_yield, h]

/-- Counterexample to claim C7 as stated: with the scheduler active, a call
at time 100 whose yielded task is rescheduled after a delay of 5 (within the
one-tick bound of 10) resumes at time 105; for the already-past deadline 0
this is more than one tick past the deadline, and the call did not return
immediately.  The deadline cannot influence the resume time because the
macro expands to the zero-argument piccolo_lock_yield(). -/
theorem yield_until_before_counterexample :
    ¬ (yieldResumeTime ⟨true, 0, 0⟩ 100 5 ≤ 0 + 10 ∧
       yieldResumeTime ⟨true, 0, 0⟩ 100 5 = 100) := by
  decide

/-- Claim C7 amended: provided the scheduler reschedules a yielded task
within one tick interval and the deadline has not yet passed at the call,
sync_internal_yield_until_before does not keep the caller suspended past
the deadline by more than one tick; with the scheduler inactive it returns
immediately; and it raises no error for any deadline — it only ever
performs the fixed expansion piccolo_lock_yield(), whatever the deadline. -/
theorem yield_until_before_bounded (st : SchedState)
    (now delay deadline tick : Int)
    (h0 : 0 ≤ delay) (h1 : delay ≤ tick) (h2 : now ≤ deadline) :
    yieldResumeTime st now delay ≤ deadline + tick ∧
    (st.schedulerActive = false → yieldResumeTime st now delay = now) ∧
    sync_internal_yield_until_before deadline st = piccolo_lock_yield st := by
  unfold yieldResumeTime
  refine ⟨?_, ?_, rfl⟩ <;> cases h : st.schedulerActive <;> simp <;> omega

/-- Witness for C7 amended: at call time 0, delay 5, tick 10, deadline 3,
the caller resumes by time 13 = deadline + tick. -/
theorem yield_until_before_bounded_witness :
    yieldResumeTime ⟨true, 0, 0⟩ 0 5 ≤ 3 + 10 :=
  (yield_until_before_bounded ⟨true, 0, 0⟩ 0 5 3 10
    (by decide) (by decide) (by decide)).1

/-- Claim C8: every call of lock_get_caller_owner_id terminates with a value
in the lock_owner_id_t range (a valid id or the sentinel), and its event
trace contains no blocking event, no lock acquisition and no state write —
it is a pure read, safe inside a spinlock critical section. -/
theorem owner_id_pure_and_total (st : SchedState) :
    -128 ≤ (lock_get_caller_owner_id st).1 ∧
    (lock_get_caller_owner_id st).1 ≤ 127 ∧
    (∀ e ∈ (lock_get_caller_owner_id st).2, e.isBlocking = false) ∧
    (∀ e ∈ (lock_get_caller_owner_id st).2, e.acquiresLock = false) ∧
    (∀ e ∈ (lock_get_caller_owner_id st).2, e.writesState = false) := by
  have hr := toInt8_range (piccolo_get_task_id st).1
  refine ⟨hr.1, hr.2, ?_, ?_, ?_⟩ <;>
    intro e he <;>
      simp [lock_get_caller_owner_id, piccolo_get_task_id] at he <;>
        subst he <;> rfl

/-- Claim C9: sync_internal_yield_until_before behaves identically for any
two deadlines — it expands to the zero-argument piccolo_lock_yield() and
the deadline argument is never read. -/
theorem yield_deadline_irrelevant (u1 u2 : Int) (st : SchedState) :
    sync_internal_yield_until_before u1 st =
      sync_internal_yield_until_before u2 st ∧
    sync_internal_yield_until_before u1 st = piccolo_lock_yield st :=
  ⟨rfl, rfl⟩

/-- Claim C10: with the defaults, lock_get_caller_owner_id equals
piccolo_get_task_id cast to int8_t, the returned owner id is the task id
reduced modulo 2^8 and reinterpreted as signed, and any active task id
congruent to -1 modulo 256 (such as 255) is returned as -1, which is
exactly the sentinel LOCK_INVALID_OWNER_ID = ((lock_owner_id_t)-1). -/
theorem owner_id_int8_truncation (st : SchedState) :
    (lock_get_caller_owner_id st).1 = toInt8 (piccolo_get_task_id st).1 ∧
    (st.schedulerActive = true →
      (lock_get_caller_owner_id st).1 = toInt8 st.currentTaskId) ∧
    (st.schedulerActive = true → st.currentTaskId % 256 = 255 →
      (lock_get_caller_owner_id st).1 = LOCK_INVALID_OWNER_ID) ∧
    LOCK_INVALID_OWNER_ID = -1 := by
  refine ⟨rfl, ?_, ?_, by decide⟩
  · intro h
    simp [lock_get_caller_owner_id, piccolo_get_task_id, h, toInt8_toInt8]
  · intro h hm
    have h255 : st.currentTaskId % 256 = (255 : Int) % 256 := by
      rw [hm]
      decide
    simp [lock_get_caller_owner_id, piccolo_get_task_id, h, toInt8_toInt8,
      toInt8_congr _ _ h255]
    decide

/-- Witness for C10: task id 255 while the scheduler is active yields the
sentinel -1. -/
theorem owner_id_int8_truncation_witness :
    (lock_get_caller_owner_id ⟨true, 255, 0⟩).1 = LOCK_INVALID_OWNER_ID :=
  (owner_id_int8_truncation ⟨true, 255, 0⟩).2.2.1 rfl (by decide)

end PiccoloLockCore
